import Mathlib

/-!
# helm-safe: classification, safety validation, confirmation and delegation

A shallow embedding of `pkg/safe/safe.go`.

* Go strings are modelled as Lean `String`s, that is as sequences of Unicode
  code points (valid UTF-8).
* The process environment, the two `kubectl` queries, standard input, the
  delegated binary and the `pflag` parser are collected in a `World`; every
  effectful function returns its Go result together with the list of external
  interactions it performed, in order.
* Terminal formatting (colours, separators, item lists) is not modelled; calls
  of `printMessage` are recorded with their type and title.
-/

namespace HelmSafe

/-! ## Go standard library -/

/-- Go `unicode.IsSpace`: the Latin-1 white space characters and the
`White_Space` range table. -/
def unicodeIsSpace (r : Char) : Bool :=
  let n := r.toNat
  if n ≤ 0xFF then
    n = 0x09 || n = 0x0A || n = 0x0B || n = 0x0C || n = 0x0D || n = 0x20 || n = 0x85 || n = 0xA0
  else
    n = 0x1680 || (0x2000 ≤ n && n ≤ 0x200A) || n = 0x2028 || n = 0x2029 || n = 0x202F
      || n = 0x205F || n = 0x3000

/-- Go `unicode.ToLower`: ASCII is handled inline, every other code point is
looked up in the case table `tbl` (the table itself is a parameter). -/
def unicodeToLower (tbl : Char → Char) (r : Char) : Char :=
  if r.toNat ≤ 0x7F then
    if 'A'.toNat ≤ r.toNat ∧ r.toNat ≤ 'Z'.toNat then Char.ofNat (r.toNat + 32) else r
  else tbl r

/-- Go `strings.ToLower`: every code point mapped by `unicode.ToLower` (the
ASCII fast path of the library computes the same string). -/
def ToLower (tbl : Char → Char) (s : String) : String :=
  ⟨s.data.map (unicodeToLower tbl)⟩

/-- Go `strings.TrimSpace`: leading and trailing white space removed. -/
def TrimSpace (s : String) : String :=
  ⟨List.rdropWhile unicodeIsSpace (List.dropWhile unicodeIsSpace s.data)⟩

/-- Splitting of a code point list at every occurrence of `sep`. -/
def splitChars (sep : Char) : List Char → List (List Char)
  | [] => [[]]
  | c :: cs =>
    if c = sep then [] :: splitChars sep cs
    else
      match splitChars sep cs with
      | [] => [[c]]
      | l :: ls => (c :: l) :: ls

/-- Go `strings.Split(s, "\n")`. -/
def SplitLines (s : String) : List String :=
  (splitChars '\n' s.data).map String.mk

/-- Go `strings.Contains` on code point lists: `substr` starts at some position
of `s`. -/
def containsChars (substr : List Char) : List Char → Bool
  | [] => substr.isEmpty
  | c :: cs => substr.isPrefixOf (c :: cs) || containsChars substr cs

/-- Go `strings.Contains`. -/
def Contains (s substr : String) : Bool :=
  containsChars substr.data s.data

/-- Go `strings.Join`. -/
def Join (elems : List String) (sep : String) : String :=
  sep.intercalate elems

/-- Go `(*bufio.Reader).ReadString(delim)` on the code points that the stream
delivers before it ends or fails: the text up to and including the first
`delim` with a nil error, or everything delivered with a non-nil error (the
second component is `true` exactly when the error is non-nil). -/
def readChars (delim : Char) : List Char → List Char × Bool
  | [] => ([], true)
  | c :: cs =>
    if c = delim then ([c], false)
    else ((readChars delim cs).1.cons c, (readChars delim cs).2)

/-- The Go call `reader.ReadString('\n')` on standard input. -/
def ReadString (input : String) : String × Bool :=
  (⟨(readChars '\n' input.data).1⟩, (readChars '\n' input.data).2)

/-! ## Classification tables -/

/-- Commands that are modifying by themselves or with specific subcommands. -/
def ModifyingCommandMap : List (String × List String) :=
  [("install", []), ("upgrade", []), ("uninstall", []), ("delete", []), ("rollback", []),
   ("create", []), ("dependency", ["update", "build"]), ("package", []),
   ("plugin", ["install", "update", "uninstall"]),
   ("repo", ["add", "update", "remove"]),
   ("push", [])]

/-- Commands that are safe and pass through without checks. -/
def SafeCommandMap : List (String × List String) :=
  [("list", []), ("ls", []), ("status", []), ("get", []), ("history", []),
   ("show", ["values", "chart", "readme", "all"]),
   ("test", []),
   ("lint", []),
   ("verify", []),
   ("version", []),
   ("help", []),
   ("search", ["hub", "repo"]),
   ("pull", []),
   ("template", []),
   ("dependency", ["list"]),
   ("plugin", ["list"]),
   ("repo", ["list", "index"]),
   ("completion", ["bash", "zsh", "fish", "powershell"]),
   ("env", [])]

/-- Go map indexing `m[key]` with the comma-ok form: `none` when the key is
absent. -/
def mapLookup (m : List (String × List String)) (key : String) : Option (List String) :=
  match m with
  | [] => none
  | (k, v) :: rest => if key = k then some v else mapLookup rest key

/-- The Go function `isSafeCommand`. -/
def isSafeCommand (command : String) (args : List String) : Bool :=
  match mapLookup SafeCommandMap command with
  | none => false
  | some subcommands =>
    if subcommands.length = 0 then true
    else
      match args with
      | a0 :: _ => subcommands.contains a0
      | [] => false

/-- The Go function `isModifyingCommand`. -/
def isModifyingCommand (command : String) (args : List String) : Bool :=
  match mapLookup ModifyingCommandMap command with
  | none => false
  | some subcommands =>
    if subcommands.length = 0 then true
    else
      match args with
      | a0 :: _ => subcommands.contains a0
      | [] => false

/-- The three outcomes of classification. -/
inductive Classification where
  | Safe
  | Modifying
  | Unclassified
  deriving DecidableEq

/-- Classification in the order used by `Execute`: SAFE first, then MODIFYING,
otherwise pass-through. -/
def classify (command : String) (args : List String) : Classification :=
  if isSafeCommand command args then Classification.Safe
  else if isModifyingCommand command args then Classification.Modifying
  else Classification.Unclassified

/-- Classification with the two tables consulted in the opposite order. -/
def classifyModifyingFirst (command : String) (args : List String) : Classification :=
  if isModifyingCommand command args then Classification.Modifying
  else if isSafeCommand command args then Classification.Safe
  else Classification.Unclassified

/-! ## The outside world and the trace of interactions -/

/-- The category of a message printed by `printMessage`. -/
inductive MessageType where
  | TypeNotice
  | TypeWarning
  | TypeAlert
  | TypeProductionAlert
  deriving DecidableEq

/-- One external interaction of a run. -/
inductive Event where
  /-- A call of `printMessage` with its type and title. -/
  | printMessage (msgType : MessageType) (title : String)
  /-- The call of `showHelp`. -/
  | showHelp
  /-- The version line printed for `--version` and `-V`. -/
  | printVersion
  /-- A run of `kubectl` with the given arguments. -/
  | kubectl (args : List String)
  /-- The read of one line from standard input. -/
  | readStdin
  /-- A run of the delegated binary `bin` with the given arguments. -/
  | helm (bin : String) (args : List String)
  deriving DecidableEq

/-- Everything a run reads from outside the program. -/
structure World where
  /-- The argument vector `os.Args[1:]`. -/
  args : List String
  /-- The value of `os.Getenv("HELM_NAMESPACE")`, empty when unset. -/
  envNamespace : String
  /-- The value of `os.Getenv("HELM_KUBECONTEXT")`, empty when unset. -/
  envKubeContext : String
  /-- The value of `os.Getenv("HELM_BIN")`, empty when unset. -/
  envHelmBin : String
  /-- The result of `kubectl config get-contexts -o name`: its standard output,
  or the error of `cmd.Output()`. -/
  getContexts : Except String String
  /-- The result of `kubectl config current-context`. -/
  currentContext : Except String String
  /-- The code points standard input delivers before it ends or fails. -/
  stdin : String
  /-- The error returned by `cmd.Run()` of the delegated binary, `none` for nil. -/
  helmRun : String → List String → Option String
  /-- The `pflag` parser with unknown flags whitelisted: for a flag set that
  registers the string flags `registered` (each with default `""`) and the
  arguments parsed, the value left in the variable bound to flag `name`. -/
  pflagParse : (registered : List String) → (args : List String) → (name : String) → String
  /-- The Unicode case table consulted by `unicode.ToLower` outside ASCII. -/
  caseTable : Char → Char

/-- The event of `kubectl config get-contexts -o name`. -/
def getContextsEvent : Event := Event.kubectl ["config", "get-contexts", "-o", "name"]

/-- The event of `kubectl config current-context`. -/
def currentContextEvent : Event := Event.kubectl ["config", "current-context"]

/-- Tells whether an event is a run of the delegated binary. -/
def Event.isHelm : Event → Bool
  | Event.helm _ _ => true
  | _ => false

/-- A trace without a run of the delegated binary and without a read of
standard input. -/
def quiet (t : List Event) : Prop :=
  ∀ e ∈ t, e.isHelm = false ∧ e ≠ Event.readStdin

/-! ## Safety validation -/

/-- The loop of `validateContext`: the first entry that equals `context` after
trimming ends the search with success. -/
def matchContext (contexts : List String) (context : String) : Bool :=
  match contexts with
  | [] => false
  | ctx :: rest => if TrimSpace ctx = context then true else matchContext rest context

/-- The Go function `validateContext`: the returned error (`none` for nil) and
the interactions performed. -/
def validateContext (w : World) (context : String) : Option String × List Event :=
  match w.getContexts with
  | Except.error err => (some ("failed to get kubectl contexts: " ++ err), [getContextsEvent])
  | Except.ok output =>
    let contexts := SplitLines (TrimSpace output)
    if matchContext contexts context then (none, [getContextsEvent])
    else
      (some ("context '" ++ context ++ "' not found"),
        [getContextsEvent, Event.printMessage MessageType.TypeWarning "Invalid context specified"])

/-- The flag set of `performSafetyChecks`. -/
def safetyFlagSet : List String := ["namespace", "kube-context"]

/-- The list `missingFlags` built by `performSafetyChecks` from the parsed flag
values and the environment. -/
def missingFlags (w : World) (namespaceFlag kubeContext : String) : List String :=
  (if namespaceFlag = "" ∧ w.envNamespace = "" then ["--namespace/-n"] else [])
    ++ (if kubeContext = "" ∧ w.envKubeContext = "" then ["--kube-context"] else [])

/-- The error text returned for a non-empty list of missing flags. -/
def missingFlagsError (missing : List String) : String :=
  "missing required safety flags: " ++ Join missing ", "

/-- The Go function `performSafetyChecks`: the returned error (`none` for nil)
and the interactions performed. -/
def performSafetyChecks (w : World) (args : List String) : Option String × List Event :=
  let namespaceFlag := w.pflagParse safetyFlagSet args "namespace"
  let kubeContext := w.pflagParse safetyFlagSet args "kube-context"
  let missing := missingFlags w namespaceFlag kubeContext
  if missing.length > 0 then
    (some (missingFlagsError missing),
      [Event.printMessage MessageType.TypeWarning "Missing required safety flags",
       Event.printMessage MessageType.TypeNotice "Safety requirement"])
  else if kubeContext ≠ "" then
    match validateContext w kubeContext with
    | (some err, t) => (some err, t)
    | (none, t) => (none, t)
  else (none, [])

/-! ## Confirmation -/

/-- The Go function `getEffectiveNamespace`. -/
def getEffectiveNamespace (w : World) (args : List String) : String :=
  let namespaceFlag := w.pflagParse ["namespace"] args "namespace"
  if namespaceFlag ≠ "" then namespaceFlag
  else if w.envNamespace ≠ "" then w.envNamespace
  else "default"

/-- The Go function `getEffectiveContext`. -/
def getEffectiveContext (w : World) (args : List String) : String × List Event :=
  let kubeContext := w.pflagParse ["kube-context"] args "kube-context"
  if kubeContext ≠ "" then (kubeContext, [])
  else if w.envKubeContext ≠ "" then (w.envKubeContext, [])
  else
    match w.currentContext with
    | Except.error _ => ("unknown", [currentContextEvent])
    | Except.ok output => (TrimSpace output, [currentContextEvent])

/-- The Go function `isProductionContext`. -/
def isProductionContext (tbl : Char → Char) (context : String) : Bool :=
  let lowerContext := ToLower tbl context
  let prodKeywords := ["prod", "production", "live", "prd"]
  prodKeywords.any (fun keyword => Contains lowerContext keyword)

/-- The Go function `confirmExecution`: the answer and the interactions
performed. -/
def confirmExecution (w : World) (args : List String) : Bool × List Event :=
  let context := getEffectiveContext w args
  let alert :=
    if isProductionContext w.caseTable context.1 then
      [Event.printMessage MessageType.TypeProductionAlert "PRODUCTION CONTEXT DETECTED"]
    else []
  let read := ReadString w.stdin
  if read.2 then (false, context.2 ++ alert ++ [Event.readStdin])
  else
    let response := TrimSpace (ToLower w.caseTable read.1)
    (response = "y" || response = "yes", context.2 ++ alert ++ [Event.readStdin])

/-! ## Execution -/

/-- The Go function `executeHelm`. -/
def executeHelm (w : World) (args : List String) : Option String × List Event :=
  let helmBin := if w.envHelmBin = "" then "helm" else w.envHelmBin
  (w.helmRun helmBin args, [Event.helm helmBin args])

/-- The tail of `Execute` reached by a modifying command: safety checks, the
confirmation prompt, then the delegated binary. -/
def executeGated (w : World) (args : List String) : Option String × List Event :=
  match performSafetyChecks w args with
  | (some err, t) => (some err, t)
  | (none, t) =>
    let confirmed := confirmExecution w args
    if !confirmed.1 then
      (none, t ++ confirmed.2 ++ [Event.printMessage MessageType.TypeNotice "Operation cancelled"])
    else
      let run := executeHelm w args
      (run.1, t ++ confirmed.2 ++ run.2)

/-- The Go function `Execute`: the returned error (`none` for nil) and the
interactions performed, in order. -/
def Execute (w : World) : Option String × List Event :=
  let args := w.args
  match args with
  | [] => (none, [Event.printMessage MessageType.TypeNotice "No command specified"])
  | command :: remainingArgs =>
    if command = "--help" ∨ command = "-h" then (none, [Event.showHelp])
    else if command = "--version" ∨ command = "-V" then (none, [Event.printVersion])
    else if isSafeCommand command remainingArgs then executeHelm w args
    else if !isModifyingCommand command remainingArgs then executeHelm w args
    else executeGated w args

/-! ## Concrete scenarios -/

/-- A concrete world: the argument vector `args`, for which `pflag` leaves
`namespaceFlag` in the variable of the namespace flag and `kubeContextFlag` in
the one of the context flag (in every flag set registering the flag), the two
environment variables, the output of the context list query and the content
of standard input. The delegated binary succeeds, `HELM_BIN` is unset, the
current context is `dev` and the case table outside ASCII is the identity. -/
def scenario (args : List String) (namespaceFlag kubeContextFlag : String)
    (envNamespace envKubeContext : String) (getContexts : Except String String)
    (stdin : String) : World where
  args := args
  envNamespace := envNamespace
  envKubeContext := envKubeContext
  envHelmBin := ""
  getContexts := getContexts
  currentContext := Except.ok "dev\n"
  stdin := stdin
  helmRun := fun _ _ => none
  pflagParse := fun registered _ name =>
    if name ∈ registered then
      if name = "namespace" then namespaceFlag
      else if name = "kube-context" then kubeContextFlag
      else ""
    else ""
  caseTable := fun c => c

/-- The run `install app ./chart --namespace web --kube-context dev` with the
contexts `dev`, `staging` and `prod-eu` configured and the given content of
standard input. -/
def installScenario (stdin : String) : World :=
  scenario ["install", "app", "./chart", "--namespace", "web", "--kube-context", "dev"]
    "web" "dev" "" "" (Except.ok "dev\nstaging\nprod-eu\n") stdin

/-- The run `install app --namespace web` with `HELM_KUBECONTEXT=ghost` while
only the contexts `dev` and `staging` are configured. -/
def envContextScenario : World :=
  scenario ["install", "app", "--namespace", "web"] "web" "" "" "ghost"
    (Except.ok "dev\nstaging\n") "y\n"

/-- The run `install app` without flags and with an empty environment. -/
def bareScenario : World :=
  scenario ["install", "app"] "" "" "" "" (Except.ok "dev\nstaging\n") "y\n"

/-- The run `install app --namespace web --kube-context ghost` with an empty
environment while only the contexts `dev` and `staging` are configured. -/
def flagContextScenario : World :=
  scenario ["install", "app", "--namespace", "web", "--kube-context", "ghost"] "web" "ghost"
    "" "" (Except.ok "dev\nstaging\n") "y\n"

/-- The run `install app --kube-context dev` with an empty environment. -/
def noNamespaceScenario : World :=
  scenario ["install", "app", "--kube-context", "dev"] "" "dev" "" ""
    (Except.ok "dev\nstaging\n") "y\n"

/-- The run `install app --namespace web` with an empty environment. -/
def noContextScenario : World :=
  scenario ["install", "app", "--namespace", "web"] "web" "" "" ""
    (Except.ok "dev\nstaging\n") "y\n"

/-! ## Lemmas on the classifier -/

theorem mapLookup_some_mem (m : List (String × List String)) (key : String)
    (v : List String) (h : mapLookup m key = some v) : (key, v) ∈ m := by
  induction m with
  | nil => simp [mapLookup] at h
  | cons e rest ih =>
    obtain ⟨k, v0⟩ := e
    unfold mapLookup at h
    by_cases hk : key = k
    · rw [if_pos hk] at h
      cases h
      subst hk
      exact List.mem_cons_self _ _
    · rw [if_neg hk] at h
      exact List.mem_cons_of_mem _ (ih h)

/-- A command accepted by `isModifyingCommand` is an entry of the table, and
either the entry has no subcommands or the first argument is one of them. -/
theorem isModifyingCommand_true_entry (command : String) (args : List String)
    (h : isModifyingCommand command args = true) :
    ∃ subcommands, (command, subcommands) ∈ ModifyingCommandMap ∧
      (subcommands = [] ∨ ∃ sub rest, sub ∈ subcommands ∧ args = sub :: rest) := by
  unfold isModifyingCommand at h
  cases hl : mapLookup ModifyingCommandMap command with
  | none => rw [hl] at h; simp at h
  | some subcommands =>
    rw [hl] at h
    refine ⟨subcommands, mapLookup_some_mem _ _ _ hl, ?_⟩
    cases subcommands with
    | nil => exact Or.inl rfl
    | cons s ss =>
      right
      cases args with
      | nil => simp at h
      | cons a0 rest =>
        refine ⟨a0, rest, ?_, rfl⟩
        simpa using h

/-- No entry of the MODIFYING table, matched by its arguments, is accepted by
`isSafeCommand`. -/
theorem modifying_entry_not_safe (command : String) (subcommands args : List String)
    (hentry : (command, subcommands) ∈ ModifyingCommandMap)
    (hsub : subcommands = [] ∨ ∃ sub rest, sub ∈ subcommands ∧ args = sub :: rest) :
    isSafeCommand command args = false := by
  simp only [ModifyingCommandMap, List.mem_cons, Prod.mk.injEq, List.mem_nil_iff,
    or_false] at hentry
  rcases hentry with h | h | h | h | h | h | h | h | h | h | h <;> obtain ⟨rfl, rfl⟩ := h
  all_goals first
    | rfl
    | (rcases hsub with h | ⟨sub, rest, hm, rfl⟩
       · simp at h
       · simp only [List.mem_cons, List.mem_nil_iff, or_false] at hm
         rcases hm with rfl | rfl | rfl <;> rfl)

/-- Every entry of the MODIFYING table, matched by its arguments, is accepted
by `isModifyingCommand`. -/
theorem modifying_entry_modifying (command : String) (subcommands args : List String)
    (hentry : (command, subcommands) ∈ ModifyingCommandMap)
    (hsub : subcommands = [] ∨ ∃ sub rest, sub ∈ subcommands ∧ args = sub :: rest) :
    isModifyingCommand command args = true := by
  simp only [ModifyingCommandMap, List.mem_cons, Prod.mk.injEq, List.mem_nil_iff,
    or_false] at hentry
  rcases hentry with h | h | h | h | h | h | h | h | h | h | h <;> obtain ⟨rfl, rfl⟩ := h
  all_goals first
    | rfl
    | (rcases hsub with h | ⟨sub, rest, hm, rfl⟩
       · simp at h
       · simp only [List.mem_cons, List.mem_nil_iff, or_false] at hm
         rcases hm with rfl | rfl | rfl <;> rfl)

/-- The two predicates are never both true. -/
theorem not_safe_and_modifying (command : String) (args : List String) :
    ¬ (isSafeCommand command args = true ∧ isModifyingCommand command args = true) := by
  rintro ⟨hs, hm⟩
  obtain ⟨subcommands, hentry, hsub⟩ := isModifyingCommand_true_entry command args hm
  rw [modifying_entry_not_safe command subcommands args hentry hsub] at hs
  exact Bool.false_ne_true hs

/-! ## Lemmas on traces -/

theorem quiet_nil : quiet [] := by
  intro e he
  cases he

theorem quiet_append (t u : List Event) (ht : quiet t) (hu : quiet u) : quiet (t ++ u) := by
  intro e he
  rcases List.mem_append.mp he with h | h
  · exact ht e h
  · exact hu e h

theorem validateContext_quiet (w : World) (context : String) :
    quiet (validateContext w context).2 := by
  unfold validateContext
  intro e he
  split at he
  · simp only [List.mem_singleton] at he
    subst he
    exact ⟨rfl, by simp [getContextsEvent]⟩
  · simp only at he
    split at he
    · simp only [List.mem_singleton] at he
      subst he
      exact ⟨rfl, by simp [getContextsEvent]⟩
    · simp only [List.mem_cons, List.mem_singleton, List.mem_nil_iff, or_false] at he
      rcases he with rfl | rfl
      · exact ⟨rfl, by simp [getContextsEvent]⟩
      · exact ⟨rfl, by simp⟩

theorem performSafetyChecks_quiet (w : World) (args : List String) :
    quiet (performSafetyChecks w args).2 := by
  unfold performSafetyChecks
  simp only
  split
  · intro e he
    simp only [List.mem_cons, List.mem_singleton, List.mem_nil_iff, or_false] at he
    rcases he with rfl | rfl
    · exact ⟨rfl, by simp⟩
    · exact ⟨rfl, by simp⟩
  · split
    · have hq := validateContext_quiet w (w.pflagParse safetyFlagSet args "kube-context")
      split
      · rename_i heq
        rw [heq] at hq
        exact hq
      · rename_i heq
        rw [heq] at hq
        exact hq
    · exact quiet_nil

theorem getEffectiveContext_quiet (w : World) (args : List String) :
    quiet (getEffectiveContext w args).2 := by
  unfold getEffectiveContext
  simp only
  split
  · exact quiet_nil
  · split
    · exact quiet_nil
    · split <;>
      · intro e he
        simp only [List.mem_singleton] at he
        subst he
        exact ⟨rfl, by simp [currentContextEvent]⟩

/-- The trace of `confirmExecution` is a quiet prefix followed by the single
read of standard input. -/
theorem confirmExecution_trace (w : World) (args : List String) :
    ∃ pre, (confirmExecution w args).2 = pre ++ [Event.readStdin] ∧ quiet pre := by
  have hq := getEffectiveContext_quiet w args
  have ha : quiet (if isProductionContext w.caseTable (getEffectiveContext w args).1 then
      [Event.printMessage MessageType.TypeProductionAlert "PRODUCTION CONTEXT DETECTED"]
      else []) := by
    split
    · intro e he
      simp only [List.mem_singleton] at he
      subst he
      exact ⟨rfl, by simp⟩
    · exact quiet_nil
  refine ⟨_, ?_, quiet_append _ _ hq ha⟩
  unfold confirmExecution
  simp only
  split <;> rfl

/-! ## Lemmas on `Execute` -/

theorem execute_of_modifying (w : World) (command : String) (args : List String)
    (hargs : w.args = command :: args) (hs : isSafeCommand command args = false)
    (hm : isModifyingCommand command args = true) :
    Execute w = executeGated w w.args := by
  have h1 : ¬ (command = "--help" ∨ command = "-h") := by
    rintro (rfl | rfl) <;> exact absurd hm (by simp [isModifyingCommand, mapLookup, ModifyingCommandMap])
  have h2 : ¬ (command = "--version" ∨ command = "-V") := by
    rintro (rfl | rfl) <;> exact absurd hm (by simp [isModifyingCommand, mapLookup, ModifyingCommandMap])
  unfold Execute
  simp only [hargs, if_neg h1, if_neg h2, hs, hm]
  simp

theorem executeGated_of_error (w : World) (args : List String) (err : String)
    (h : (performSafetyChecks w args).1 = some err) :
    executeGated w args = (some err, (performSafetyChecks w args).2) := by
  unfold executeGated
  rcases hp : performSafetyChecks w args with ⟨r, t⟩
  rw [hp] at h
  simp only at h
  subst h
  rfl

theorem executeGated_of_declined (w : World) (args : List String)
    (h : (performSafetyChecks w args).1 = none) (hc : (confirmExecution w args).1 = false) :
    executeGated w args =
      (none, (performSafetyChecks w args).2 ++ (confirmExecution w args).2
        ++ [Event.printMessage MessageType.TypeNotice "Operation cancelled"]) := by
  unfold executeGated
  rcases hp : performSafetyChecks w args with ⟨r, t⟩
  rw [hp] at h
  simp only at h
  subst h
  simp [hc]

theorem executeGated_of_confirmed (w : World) (args : List String)
    (h : (performSafetyChecks w args).1 = none) (hc : (confirmExecution w args).1 = true) :
    executeGated w args =
      ((executeHelm w args).1, (performSafetyChecks w args).2 ++ (confirmExecution w args).2
        ++ (executeHelm w args).2) := by
  unfold executeGated
  rcases hp : performSafetyChecks w args with ⟨r, t⟩
  rw [hp] at h
  simp only at h
  subst h
  simp [hc]

theorem executeGated_helm_iff (w : World) (args : List String) :
    (∃ e ∈ (executeGated w args).2, e.isHelm = true) ↔
      ((performSafetyChecks w args).1 = none ∧ (confirmExecution w args).1 = true) := by
  have hp := performSafetyChecks_quiet w args
  obtain ⟨pre, hpre, hq⟩ := confirmExecution_trace w args
  cases hr : (performSafetyChecks w args).1 with
  | some err =>
    rw [executeGated_of_error w args err hr]
    simp only [false_and, iff_false, not_exists, not_and, reduceCtorEq]
    intro e he
    simp [(hp e he).1]
  | none =>
    cases hc : (confirmExecution w args).1 with
    | false =>
      rw [executeGated_of_declined w args hr hc, hpre]
      simp only [Bool.false_eq_true, and_false, iff_false, not_exists, not_and]
      intro e he
      simp only [List.mem_append, List.mem_singleton] at he
      rcases he with (he | he | rfl) | rfl
      · simp [(hp e he).1]
      · simp [(hq e he).1]
      · simp [Event.isHelm]
      · simp [Event.isHelm]
    | true =>
      rw [executeGated_of_confirmed w args hr hc]
      simp only [and_self, iff_true]
      exact ⟨Event.helm (if w.envHelmBin = "" then "helm" else w.envHelmBin) args,
        by simp [executeHelm], rfl⟩

theorem executeGated_read_before_helm (w : World) (args : List String)
    (h : ∃ e ∈ (executeGated w args).2, e.isHelm = true) :
    Event.readStdin ∈ (executeGated w args).2 := by
  obtain ⟨hr, hc⟩ := (executeGated_helm_iff w args).mp h
  obtain ⟨pre, hpre, -⟩ := confirmExecution_trace w args
  rw [executeGated_of_confirmed w args hr hc, hpre]
  simp

theorem classify_modifying (command : String) (args : List String)
    (h : classify command args = Classification.Modifying) :
    isSafeCommand command args = false ∧ isModifyingCommand command args = true := by
  unfold classify at h
  cases hs : isSafeCommand command args <;> cases hm : isModifyingCommand command args <;>
    simp_all

/-! ## Lemmas on validation -/

theorem matchContext_iff (contexts : List String) (context : String) :
    matchContext contexts context = true ↔ ∃ line ∈ contexts, TrimSpace line = context := by
  induction contexts with
  | nil => simp [matchContext]
  | cons ctx rest ih =>
    unfold matchContext
    by_cases h : TrimSpace ctx = context
    · simp [h]
    · simp [h, ih]

theorem missingFlagsError_ne_queryFailed (missing : List String) (err : String) :
    missingFlagsError missing ≠ "failed to get kubectl contexts: " ++ err := by
  intro h
  have h2 := congrArg (fun s => s.data.head?) h
  simp [missingFlagsError, String.data_append] at h2

theorem missingFlagsError_ne_notFound (missing : List String) (context : String) :
    missingFlagsError missing ≠ "context '" ++ context ++ "' not found" := by
  intro h
  have h2 := congrArg (fun s => s.data.head?) h
  simp [missingFlagsError, String.data_append] at h2

theorem queryFailed_ne_notFound (err context : String) :
    "failed to get kubectl contexts: " ++ err ≠ "context '" ++ context ++ "' not found" := by
  intro h
  have h2 := congrArg (fun s => s.data.head?) h
  simp [String.data_append] at h2

theorem validateContext_error_shape (w : World) (context err : String)
    (h : (validateContext w context).1 = some err) :
    (∃ cause, err = "failed to get kubectl contexts: " ++ cause) ∨
    err = "context '" ++ context ++ "' not found" := by
  unfold validateContext at h
  split at h
  · simp only [Option.some.injEq] at h
    exact Or.inl ⟨_, h.symm⟩
  · simp only at h
    split at h
    · simp at h
    · simp only [Option.some.injEq] at h
      exact Or.inr h.symm

theorem missingFlags_length_pos_iff (w : World) (namespaceFlag kubeContext : String) :
    (missingFlags w namespaceFlag kubeContext).length > 0 ↔
      ((namespaceFlag = "" ∧ w.envNamespace = "") ∨ (kubeContext = "" ∧ w.envKubeContext = "")) := by
  unfold missingFlags
  by_cases h1 : namespaceFlag = "" ∧ w.envNamespace = "" <;>
    by_cases h2 : kubeContext = "" ∧ w.envKubeContext = "" <;> simp [h1, h2]

theorem performSafetyChecks_of_missing (w : World) (args : List String)
    (h : (w.pflagParse safetyFlagSet args "namespace" = "" ∧ w.envNamespace = "") ∨
      (w.pflagParse safetyFlagSet args "kube-context" = "" ∧ w.envKubeContext = "")) :
    performSafetyChecks w args =
      (some (missingFlagsError (missingFlags w (w.pflagParse safetyFlagSet args "namespace")
          (w.pflagParse safetyFlagSet args "kube-context"))),
        [Event.printMessage MessageType.TypeWarning "Missing required safety flags",
         Event.printMessage MessageType.TypeNotice "Safety requirement"]) := by
  unfold performSafetyChecks
  simp only
  rw [if_pos ((missingFlags_length_pos_iff w _ _).mpr h)]

theorem performSafetyChecks_of_present (w : World) (args : List String)
    (h : ¬ ((w.pflagParse safetyFlagSet args "namespace" = "" ∧ w.envNamespace = "") ∨
      (w.pflagParse safetyFlagSet args "kube-context" = "" ∧ w.envKubeContext = ""))) :
    performSafetyChecks w args =
      if w.pflagParse safetyFlagSet args "kube-context" ≠ "" then
        validateContext w (w.pflagParse safetyFlagSet args "kube-context")
      else (none, []) := by
  unfold performSafetyChecks
  simp only
  rw [if_neg (fun hp => h ((missingFlags_length_pos_iff w _ _).mp hp))]
  split
  · split <;> rename_i heq <;> rw [heq]
  · rfl

theorem validateContext_of_ok (w : World) (context output : String)
    (h : w.getContexts = Except.ok output) :
    validateContext w context =
      if matchContext (SplitLines (TrimSpace output)) context then (none, [getContextsEvent])
      else
        (some ("context '" ++ context ++ "' not found"),
          [getContextsEvent,
           Event.printMessage MessageType.TypeWarning "Invalid context specified"]) := by
  unfold validateContext
  rw [h]

theorem validateContext_of_error (w : World) (context err : String)
    (h : w.getContexts = Except.error err) :
    validateContext w context =
      (some ("failed to get kubectl contexts: " ++ err), [getContextsEvent]) := by
  unfold validateContext
  rw [h]

theorem validateContext_none_iff (w : World) (context : String) :
    (validateContext w context).1 = none ↔
      ∃ output, w.getContexts = Except.ok output ∧
        ∃ line ∈ SplitLines (TrimSpace output), TrimSpace line = context := by
  cases hq : w.getContexts with
  | error err =>
    rw [validateContext_of_error w context err hq]
    simp
  | ok output =>
    rw [validateContext_of_ok w context output hq]
    by_cases hm : matchContext (SplitLines (TrimSpace output)) context = true
    · rw [if_pos hm]
      simp only [true_iff]
      exact ⟨output, rfl, (matchContext_iff _ _).mp hm⟩
    · rw [if_neg hm]
      simp only [reduceCtorEq, false_iff]
      rintro ⟨output2, ho, hl⟩
      cases ho
      exact hm ((matchContext_iff _ _).mpr hl)

/-! ## Lemmas on strings -/

theorem containsChars_iff_sublist (substr s : List Char) :
    containsChars substr s = true ↔ substr <:+: s := by
  induction s with
  | nil =>
    cases substr <;> simp [containsChars]
  | cons c cs ih =>
    unfold containsChars
    rw [Bool.or_eq_true, ih, List.isPrefixOf_iff_prefix, List.infix_cons_iff]

theorem toNat_ofNat_add (r : Char) (h1 : 'A'.toNat ≤ r.toNat) (h2 : r.toNat ≤ 'Z'.toNat) :
    (Char.ofNat (r.toNat + 32)).toNat = r.toNat + 32 := by
  have ha : 'A'.toNat = 65 := rfl
  have hz : 'Z'.toNat = 90 := rfl
  rw [ha] at h1
  rw [hz] at h2
  have hv : (r.toNat + 32).isValidChar := by
    left
    omega
  unfold Char.ofNat
  rw [dif_pos hv]
  simp [Char.ofNatAux, Char.toNat, UInt32.toNat]

/-- The inline ASCII part of `unicode.ToLower` neither creates nor removes
white space, so `unicode.ToLower` preserves white space when the case table
does. -/
theorem unicodeIsSpace_unicodeToLower (tbl : Char → Char)
    (htbl : ∀ c, unicodeIsSpace (tbl c) = unicodeIsSpace c) (r : Char) :
    unicodeIsSpace (unicodeToLower tbl r) = unicodeIsSpace r := by
  unfold unicodeToLower
  split
  · split
    · rename_i h
      obtain ⟨h1, h2⟩ := h
      have hn := toNat_ofNat_add r h1 h2
      have ha : 'A'.toNat = 65 := rfl
      have hz : 'Z'.toNat = 90 := rfl
      rw [ha] at h1
      rw [hz] at h2
      unfold unicodeIsSpace
      simp only [hn]
      have e1 : r.toNat + 32 ≤ 0xFF := by omega
      have e2 : r.toNat ≤ 0xFF := by omega
      rw [if_pos e1, if_pos e2]
      have : ∀ a b : Bool, (a = true ↔ b = true) → a = b := by decide
      apply this
      simp only [Bool.or_eq_true, decide_eq_true_eq]
      omega
    · rfl
  · exact htbl r

theorem TrimSpace_ToLower (tbl : Char → Char)
    (htbl : ∀ c, unicodeIsSpace (tbl c) = unicodeIsSpace c) (s : String) :
    TrimSpace (ToLower tbl s) = ToLower tbl (TrimSpace s) := by
  have hcomp : unicodeIsSpace ∘ unicodeToLower tbl = unicodeIsSpace := by
    funext r
    exact unicodeIsSpace_unicodeToLower tbl htbl r
  unfold TrimSpace ToLower
  simp only [List.rdropWhile, List.dropWhile_map, hcomp, ← List.map_reverse]

theorem readChars_mem_delim (delim : Char) (input : List Char) :
    (readChars delim input).2 = false ↔ delim ∈ input := by
  induction input with
  | nil => simp [readChars]
  | cons c cs ih =>
    unfold readChars
    by_cases h : c = delim
    · simp [h]
    · have h2 : ¬ delim = c := fun e => h e.symm
      simp [h, h2, ih]

theorem confirmExecution_fst (w : World) (args : List String) :
    (confirmExecution w args).1 =
      (!(ReadString w.stdin).2 &&
        (decide (TrimSpace (ToLower w.caseTable (ReadString w.stdin).1) = "y") ||
          decide (TrimSpace (ToLower w.caseTable (ReadString w.stdin).1) = "yes"))) := by
  unfold confirmExecution
  simp only
  split
  · rename_i h
    simp [h]
  · rename_i h
    simp [h]

/-! ## Classification claims -/

/-- C1: every entry of `ModifyingCommandMap` is gated. For a command listed
with an empty subcommand list and any trailing arguments, and for a command
listed with subcommands whose first trailing argument is one of them,
`isSafeCommand` is false, `isModifyingCommand` is true, the classification is
Modifying and `Execute` runs the gated tail, whose trace differs from that of
a pass-through. The commands with an empty list are install, upgrade,
uninstall, delete, rollback, create, package and push; those with subcommands
are dependency, plugin and repo. -/
theorem modifying_entries_are_gated (command : String) (subcommands args : List String)
    (hentry : (command, subcommands) ∈ ModifyingCommandMap)
    (hsub : subcommands = [] ∨ ∃ sub rest, sub ∈ subcommands ∧ args = sub :: rest) :
    isSafeCommand command args = false ∧ isModifyingCommand command args = true ∧
    classify command args = Classification.Modifying ∧
    (∀ w : World, w.args = command :: args →
      Execute w = executeGated w w.args ∧ (Execute w).2 ≠ (executeHelm w w.args).2) ∧
    (ModifyingCommandMap.filter (fun e => e.2.isEmpty)).map Prod.fst =
      ["install", "upgrade", "uninstall", "delete", "rollback", "create", "package", "push"] ∧
    (ModifyingCommandMap.filter (fun e => !e.2.isEmpty)).map Prod.fst =
      ["dependency", "plugin", "repo"] := by
  have hs := modifying_entry_not_safe command subcommands args hentry hsub
  have hm := modifying_entry_modifying command subcommands args hentry hsub
  refine ⟨hs, hm, by simp [classify, hs, hm], ?_, by decide, by decide⟩
  intro w hw
  have he := execute_of_modifying w command args hw hs hm
  refine ⟨he, ?_⟩
  rw [he]
  intro heq
  have hread := executeGated_read_before_helm w w.args
    ⟨Event.helm (if w.envHelmBin = "" then "helm" else w.envHelmBin) w.args,
      by rw [heq]; simp [executeHelm], rfl⟩
  rw [heq] at hread
  simp [executeHelm] at hread

/-- Witness of C1 at `repo add stable`. -/
theorem modifying_entries_are_gated_witness :
    ("repo", ["add", "update", "remove"]) ∈ ModifyingCommandMap ∧
    "add" ∈ ["add", "update", "remove"] ∧
    isSafeCommand "repo" ["add", "stable"] = false ∧
    isModifyingCommand "repo" ["add", "stable"] = true ∧
    classify "repo" ["add", "stable"] = Classification.Modifying :=
  have h := modifying_entries_are_gated "repo" ["add", "update", "remove"] ["add", "stable"]
    (by decide) (Or.inr ⟨"add", ["stable"], by decide, rfl⟩)
  ⟨by decide, by decide, h.1, h.2.1, h.2.2.1⟩

/-- C8 fails as stated: `list` is not a MODIFYING subcommand of `repo`, yet
`repo list` is accepted by `isSafeCommand` and classified Safe. -/
theorem unlisted_subcommand_counterexample :
    mapLookup ModifyingCommandMap "repo" = some ["add", "update", "remove"] ∧
    ["add", "update", "remove"].contains "list" = false ∧
    isSafeCommand "repo" ["list"] = true ∧
    isModifyingCommand "repo" ["list"] = false ∧
    classify "repo" ["list"] = Classification.Safe := by
  decide

/-- C8 as amended: for a command listed in `ModifyingCommandMap` with
subcommands (dependency, plugin, repo) and a first trailing argument outside
that list, `isModifyingCommand` is false; the command also has an entry in
`SafeCommandMap`, `isSafeCommand` tells whether the argument is in that
entry, and the classification is Safe when it is and Unclassified when it is
not. -/
theorem unlisted_subcommand_classification (command sub : String)
    (subcommands rest : List String)
    (hentry : (command, subcommands) ∈ ModifyingCommandMap) (hne : subcommands ≠ [])
    (hsub : sub ∉ subcommands) :
    isModifyingCommand command (sub :: rest) = false ∧
    ∃ safeSubcommands, mapLookup SafeCommandMap command = some safeSubcommands ∧
      isSafeCommand command (sub :: rest) = safeSubcommands.contains sub ∧
      (sub ∈ safeSubcommands → classify command (sub :: rest) = Classification.Safe) ∧
      (sub ∉ safeSubcommands →
        classify command (sub :: rest) = Classification.Unclassified) := by
  simp only [ModifyingCommandMap, List.mem_cons, Prod.mk.injEq, List.mem_nil_iff,
    or_false] at hentry
  rcases hentry with h | h | h | h | h | h | h | h | h | h | h <;> obtain ⟨rfl, rfl⟩ := h
  all_goals first
    | exact absurd rfl hne
    | (refine ⟨?_, _, rfl, rfl, ?_, ?_⟩
       · simpa [isModifyingCommand, mapLookup, ModifyingCommandMap] using hsub
       · intro h
         simp_all [classify, isSafeCommand, mapLookup, SafeCommandMap]
       · intro h
         simp_all [classify, isSafeCommand, isModifyingCommand, mapLookup, SafeCommandMap,
           ModifyingCommandMap])

/-- Witness of amended C8 at `repo prune`. -/
theorem unlisted_subcommand_classification_witness :
    ("repo", ["add", "update", "remove"]) ∈ ModifyingCommandMap ∧
    "prune" ∉ ["add", "update", "remove"] ∧
    isModifyingCommand "repo" ["prune"] = false :=
  ⟨by decide, by decide,
    (unlisted_subcommand_classification "repo" "prune" ["add", "update", "remove"] []
      (by decide) (by decide) (by decide)).1⟩

/-- C9: the shipped tables are disjoint. No command and arguments are accepted
by both `isSafeCommand` and `isModifyingCommand`, so consulting SAFE before
MODIFYING gives the same classification as the opposite order; a command
present in both tables has subcommands in both entries and no subcommand in
common. -/
theorem tables_disjoint (command : String) (args : List String) :
    ¬ (isSafeCommand command args = true ∧ isModifyingCommand command args = true) ∧
    classify command args = classifyModifyingFirst command args ∧
    (∀ e ∈ ModifyingCommandMap, ∀ safeSubcommands,
      mapLookup SafeCommandMap e.1 = some safeSubcommands →
        safeSubcommands ≠ [] ∧ e.2 ≠ [] ∧ ∀ x ∈ safeSubcommands, x ∉ e.2) := by
  have h := not_safe_and_modifying command args
  refine ⟨h, ?_, ?_⟩
  · unfold classify classifyModifyingFirst
    cases hs : isSafeCommand command args <;> cases hm : isModifyingCommand command args <;>
      simp_all
  · intro e he s hs
    simp only [ModifyingCommandMap, List.mem_cons, List.mem_nil_iff, or_false] at he
    rcases he with rfl | rfl | rfl | rfl | rfl | rfl | rfl | rfl | rfl | rfl | rfl <;>
      simp [mapLookup, SafeCommandMap] at hs <;> subst hs <;> decide

/-! ## Execution claims -/

/-- C3: `performSafetyChecks` fails with the missing-flags error exactly when
the namespace is missing (parsed flag value empty and `HELM_NAMESPACE` empty)
or the context is missing (parsed flag value empty and `HELM_KUBECONTEXT`
empty). The error then reports the list `missingFlags`, which holds exactly the
missing names with the namespace name before the context name, joined by a
comma and a blank after the fixed prefix: the text names the namespace flag
alone when only the namespace is missing, the context flag alone when only the
context is missing, and both in that order when both are missing. The trace
holds two messages and no query of the context list. With no flag value and no
environment the list is both names. -/
theorem missing_flags_reported (w : World) (args : List String) :
    ((∃ missing, (performSafetyChecks w args).1 = some (missingFlagsError missing)) ↔
      ((w.pflagParse safetyFlagSet args "namespace" = "" ∧ w.envNamespace = "") ∨
        (w.pflagParse safetyFlagSet args "kube-context" = "" ∧ w.envKubeContext = ""))) ∧
    (((w.pflagParse safetyFlagSet args "namespace" = "" ∧ w.envNamespace = "") ∨
        (w.pflagParse safetyFlagSet args "kube-context" = "" ∧ w.envKubeContext = "")) →
      performSafetyChecks w args =
        (some (missingFlagsError (missingFlags w (w.pflagParse safetyFlagSet args "namespace")
            (w.pflagParse safetyFlagSet args "kube-context"))),
          [Event.printMessage MessageType.TypeWarning "Missing required safety flags",
           Event.printMessage MessageType.TypeNotice "Safety requirement"]) ∧
      getContextsEvent ∉ (performSafetyChecks w args).2) ∧
    (∀ namespaceFlag kubeContext,
      missingFlags w namespaceFlag kubeContext =
        ["--namespace/-n", "--kube-context"].filter (fun name =>
          decide ((name = "--namespace/-n" ∧ namespaceFlag = "" ∧ w.envNamespace = "") ∨
            (name = "--kube-context" ∧ kubeContext = "" ∧ w.envKubeContext = "")))) ∧
    (w.pflagParse safetyFlagSet args "namespace" = "" → w.envNamespace = "" →
      w.pflagParse safetyFlagSet args "kube-context" = "" → w.envKubeContext = "" →
      missingFlags w "" "" = ["--namespace/-n", "--kube-context"] ∧
      (performSafetyChecks w args).1 =
        some "missing required safety flags: --namespace/-n, --kube-context") ∧
    ((w.pflagParse safetyFlagSet args "namespace" = "" ∧ w.envNamespace = "") →
      ¬ (w.pflagParse safetyFlagSet args "kube-context" = "" ∧ w.envKubeContext = "") →
      missingFlags w (w.pflagParse safetyFlagSet args "namespace")
        (w.pflagParse safetyFlagSet args "kube-context") = ["--namespace/-n"] ∧
      (performSafetyChecks w args).1 =
        some "missing required safety flags: --namespace/-n") ∧
    (¬ (w.pflagParse safetyFlagSet args "namespace" = "" ∧ w.envNamespace = "") →
      (w.pflagParse safetyFlagSet args "kube-context" = "" ∧ w.envKubeContext = "") →
      missingFlags w (w.pflagParse safetyFlagSet args "namespace")
        (w.pflagParse safetyFlagSet args "kube-context") = ["--kube-context"] ∧
      (performSafetyChecks w args).1 =
        some "missing required safety flags: --kube-context") ∧
    ((w.pflagParse safetyFlagSet args "namespace" = "" ∧ w.envNamespace = "") →
      (w.pflagParse safetyFlagSet args "kube-context" = "" ∧ w.envKubeContext = "") →
      missingFlags w (w.pflagParse safetyFlagSet args "namespace")
        (w.pflagParse safetyFlagSet args "kube-context") =
          ["--namespace/-n", "--kube-context"] ∧
      (performSafetyChecks w args).1 =
        some "missing required safety flags: --namespace/-n, --kube-context") ∧
    (∀ missing, missingFlagsError missing =
      "missing required safety flags: " ++ ", ".intercalate missing) ∧
    (∀ err, (performSafetyChecks w args).1 = some err →
      ¬ ((w.pflagParse safetyFlagSet args "namespace" = "" ∧ w.envNamespace = "") ∨
        (w.pflagParse safetyFlagSet args "kube-context" = "" ∧ w.envKubeContext = "")) →
      ∀ missing, err ≠ "missing required safety flags: " ++ ", ".intercalate missing) := by
  refine ⟨⟨?_, ?_⟩, ?_, ?_, ?_, ?_, ?_, ?_, ?_, ?_⟩
  · rintro ⟨missing, hm⟩
    by_contra hpresent
    rw [performSafetyChecks_of_present w args hpresent] at hm
    split at hm
    · rcases validateContext_error_shape w _ _ hm with ⟨cause, hc⟩ | hc
      · exact missingFlagsError_ne_queryFailed _ _ hc
      · exact missingFlagsError_ne_notFound _ _ hc
    · simp at hm
  · intro h
    exact ⟨_, by rw [performSafetyChecks_of_missing w args h]⟩
  · intro h
    rw [performSafetyChecks_of_missing w args h]
    exact ⟨rfl, by simp [getContextsEvent]⟩
  · intro namespaceFlag kubeContext
    unfold missingFlags
    by_cases h1 : namespaceFlag = "" ∧ w.envNamespace = "" <;>
      by_cases h2 : kubeContext = "" ∧ w.envKubeContext = "" <;>
      simp [h1, h2, List.filter]
  · intro h1 h2 h3 h4
    have hm : missingFlags w "" "" = ["--namespace/-n", "--kube-context"] := by
      simp [missingFlags, h2, h4]
    refine ⟨hm, ?_⟩
    rw [performSafetyChecks_of_missing w args (Or.inl ⟨h1, h2⟩), h1, h3, hm]
    rfl
  · intro h1 h2
    have hm : missingFlags w (w.pflagParse safetyFlagSet args "namespace")
        (w.pflagParse safetyFlagSet args "kube-context") = ["--namespace/-n"] := by
      unfold missingFlags
      rw [if_pos h1, if_neg h2]
      rfl
    refine ⟨hm, ?_⟩
    rw [performSafetyChecks_of_missing w args (Or.inl h1), hm]
    rfl
  · intro h1 h2
    have hm : missingFlags w (w.pflagParse safetyFlagSet args "namespace")
        (w.pflagParse safetyFlagSet args "kube-context") = ["--kube-context"] := by
      unfold missingFlags
      rw [if_neg h1, if_pos h2]
      rfl
    refine ⟨hm, ?_⟩
    rw [performSafetyChecks_of_missing w args (Or.inr h2), hm]
    rfl
  · intro h1 h2
    have hm : missingFlags w (w.pflagParse safetyFlagSet args "namespace")
        (w.pflagParse safetyFlagSet args "kube-context") =
          ["--namespace/-n", "--kube-context"] := by
      unfold missingFlags
      rw [if_pos h1, if_pos h2]
      rfl
    refine ⟨hm, ?_⟩
    rw [performSafetyChecks_of_missing w args (Or.inl h1), hm]
    rfl
  · intro missing
    rfl
  · intro err herr hpresent missing heq
    rw [performSafetyChecks_of_present w args hpresent] at herr
    subst heq
    split at herr
    · rcases validateContext_error_shape w _ _ herr with ⟨cause, hc⟩ | hc
      · exact missingFlagsError_ne_queryFailed missing cause hc
      · exact missingFlagsError_ne_notFound missing _ hc
    · simp at herr

/-- Witness of C3: `install app` without flags and with an empty environment
fails with both names and the context list is not queried; with only the
context flag the text names the namespace flag alone, and with only the
namespace flag it names the context flag alone. -/
theorem missing_flags_reported_witness :
    bareScenario.pflagParse safetyFlagSet bareScenario.args "namespace" = "" ∧
    bareScenario.envNamespace = "" ∧
    bareScenario.pflagParse safetyFlagSet bareScenario.args "kube-context" = "" ∧
    bareScenario.envKubeContext = "" ∧
    (performSafetyChecks bareScenario bareScenario.args).1 =
      some "missing required safety flags: --namespace/-n, --kube-context" ∧
    getContextsEvent ∉ (performSafetyChecks bareScenario bareScenario.args).2 ∧
    noNamespaceScenario.pflagParse safetyFlagSet noNamespaceScenario.args "namespace" = "" ∧
    noNamespaceScenario.pflagParse safetyFlagSet noNamespaceScenario.args "kube-context"
      = "dev" ∧
    (performSafetyChecks noNamespaceScenario noNamespaceScenario.args).1 =
      some "missing required safety flags: --namespace/-n" ∧
    noContextScenario.pflagParse safetyFlagSet noContextScenario.args "namespace" = "web" ∧
    noContextScenario.pflagParse safetyFlagSet noContextScenario.args "kube-context" = "" ∧
    (performSafetyChecks noContextScenario noContextScenario.args).1 =
      some "missing required safety flags: --kube-context" :=
  have h := missing_flags_reported bareScenario bareScenario.args
  have hn := missing_flags_reported noNamespaceScenario noNamespaceScenario.args
  have hc := missing_flags_reported noContextScenario noContextScenario.args
  ⟨rfl, rfl, rfl, rfl, (h.2.2.2.1 rfl rfl rfl rfl).2, (h.2.1 (Or.inl ⟨rfl, rfl⟩)).2,
    rfl, rfl, (hn.2.2.2.2.1 ⟨rfl, rfl⟩ (by decide)).2,
    rfl, rfl, (hc.2.2.2.2.2.1 (by decide) ⟨rfl, rfl⟩).2⟩

/-- C4, the code at the failing input: `install app --namespace web` with
`HELM_KUBECONTEXT=ghost`, while only `dev` and `staging` are configured. The
environment value counts as the context for the presence check, yet
`performSafetyChecks` passes without any query of the context list, and after
the answer `y` the delegated binary is run. The same value given by the
`--kube-context` flag is rejected with the not-found error after the query. -/
theorem env_context_not_validated :
    classify "install" ["app", "--namespace", "web"] = Classification.Modifying ∧
    envContextScenario.args = ["install", "app", "--namespace", "web"] ∧
    envContextScenario.pflagParse safetyFlagSet envContextScenario.args "namespace" = "web" ∧
    envContextScenario.pflagParse safetyFlagSet envContextScenario.args "kube-context" = "" ∧
    envContextScenario.envKubeContext = "ghost" ∧
    envContextScenario.getContexts = Except.ok "dev\nstaging\n" ∧
    SplitLines (TrimSpace "dev\nstaging\n") = ["dev", "staging"] ∧
    matchContext ["dev", "staging"] "ghost" = false ∧
    missingFlags envContextScenario "web" "" = [] ∧
    (getEffectiveContext envContextScenario envContextScenario.args).1 = "ghost" ∧
    performSafetyChecks envContextScenario envContextScenario.args = (none, []) ∧
    Execute envContextScenario =
      (none, [Event.readStdin, Event.helm "helm" ["install", "app", "--namespace", "web"]]) ∧
    flagContextScenario.pflagParse safetyFlagSet flagContextScenario.args "kube-context"
      = "ghost" ∧
    flagContextScenario.getContexts = Except.ok "dev\nstaging\n" ∧
    performSafetyChecks flagContextScenario flagContextScenario.args =
      (some "context 'ghost' not found",
        [getContextsEvent,
         Event.printMessage MessageType.TypeWarning "Invalid context specified"]) ∧
    Execute flagContextScenario =
      (some "context 'ghost' not found",
        [getContextsEvent,
         Event.printMessage MessageType.TypeWarning "Invalid context specified"]) := by
  refine ⟨by decide, rfl, rfl, rfl, rfl, rfl, by decide, by decide, by decide, by decide,
    by decide, by decide, rfl, rfl, by decide, by decide⟩

/-- The flag path of the context check: when the namespace is present and the
value of the `--kube-context` flag is not empty, `performSafetyChecks` is the
validation of that value by `validateContext`. It passes exactly when the context list query
succeeds and some trimmed line of its output equals the value, it fails with
the not-found error when the query succeeds and no line does, and the context
list is queried in both cases. -/
theorem flag_context_validated (w : World) (args : List String)
    (hns : ¬ (w.pflagParse safetyFlagSet args "namespace" = "" ∧ w.envNamespace = ""))
    (hctx : w.pflagParse safetyFlagSet args "kube-context" ≠ "") :
    performSafetyChecks w args =
      validateContext w (w.pflagParse safetyFlagSet args "kube-context") ∧
    ((performSafetyChecks w args).1 = none ↔
      ∃ output, w.getContexts = Except.ok output ∧
        ∃ line ∈ SplitLines (TrimSpace output),
          TrimSpace line = w.pflagParse safetyFlagSet args "kube-context") ∧
    (∀ output, w.getContexts = Except.ok output →
      (∀ line ∈ SplitLines (TrimSpace output),
        TrimSpace line ≠ w.pflagParse safetyFlagSet args "kube-context") →
      (performSafetyChecks w args).1 =
        some ("context '" ++ w.pflagParse safetyFlagSet args "kube-context" ++ "' not found")) ∧
    getContextsEvent ∈ (performSafetyChecks w args).2 := by
  have hp : performSafetyChecks w args =
      validateContext w (w.pflagParse safetyFlagSet args "kube-context") := by
    rw [performSafetyChecks_of_present w args (by
      rintro (h | h)
      · exact hns h
      · exact hctx h.1)]
    rw [if_pos hctx]
  refine ⟨hp, ?_, ?_, ?_⟩
  · rw [hp]
    exact validateContext_none_iff w _
  · intro output ho hall
    rw [hp, validateContext_of_ok w _ output ho]
    have hm : ¬ matchContext (SplitLines (TrimSpace output))
        (w.pflagParse safetyFlagSet args "kube-context") = true := by
      intro hm
      obtain ⟨line, hl, he⟩ := (matchContext_iff _ _).mp hm
      exact hall line hl he
    rw [if_neg hm]
  · rw [hp]
    cases hq : w.getContexts with
    | error err =>
      rw [validateContext_of_error w _ err hq]
      simp
    | ok output =>
      rw [validateContext_of_ok w _ output hq]
      split <;> simp

/-- The flag path at `install` with `--kube-context dev` and the contexts
`dev`, `staging` and `prod-eu` configured: it passes after querying the list. -/
theorem flag_context_validated_witness :
    ¬ ((installScenario "y\n").pflagParse safetyFlagSet (installScenario "y\n").args
        "namespace" = "" ∧ (installScenario "y\n").envNamespace = "") ∧
    (installScenario "y\n").pflagParse safetyFlagSet (installScenario "y\n").args
        "kube-context" ≠ "" ∧
    performSafetyChecks (installScenario "y\n") (installScenario "y\n").args =
      validateContext (installScenario "y\n") "dev" ∧
    getContextsEvent ∈
      (performSafetyChecks (installScenario "y\n") (installScenario "y\n").args).2 :=
  have h := flag_context_validated (installScenario "y\n") (installScenario "y\n").args
    (by decide) (by decide)
  ⟨by decide, by decide, h.1, h.2.2.2⟩

/-- C5: when the context list query succeeds, `validateContext` returns no
error exactly when some line of the output (output trimmed, split at newlines,
each line trimmed) equals the context name, and otherwise the error
`context '<name>' not found`; the comparison is exact, so a name that is only a
prefix or a re-casing of a listed context is not found. When the query fails
the error is `failed to get kubectl contexts: <cause>`, which contains no
context name and differs from every not-found error. -/
theorem validateContext_exact_match (w : World) (context output : String) :
    ((validateContext { w with getContexts := Except.ok output } context).1 = none ↔
      ∃ line ∈ SplitLines (TrimSpace output), TrimSpace line = context) ∧
    ((validateContext { w with getContexts := Except.ok output } context).1 = none ∨
      (validateContext { w with getContexts := Except.ok output } context).1 =
        some ("context '" ++ context ++ "' not found")) ∧
    (∀ cause, (validateContext { w with getContexts := Except.error cause } context).1 =
        some ("failed to get kubectl contexts: " ++ cause) ∧
      ∀ name, "failed to get kubectl contexts: " ++ cause ≠ "context '" ++ name ++ "' not found") ∧
    (validateContext { w with getContexts := Except.ok "dev\n  staging \nprod-eu\n" }
        "staging").1 = none ∧
    (validateContext { w with getContexts := Except.ok "dev\n  staging \nprod-eu\n" }
        "prod").1 = some "context 'prod' not found" ∧
    (validateContext { w with getContexts := Except.ok "dev\n  staging \nprod-eu\n" }
        "Dev").1 = some "context 'Dev' not found" ∧
    (validateContext { w with getContexts := Except.ok "dev\n  staging \nprod-eu\n" }
        "staging prod-eu").1 = some "context 'staging prod-eu' not found" := by
  refine ⟨?_, ?_, ?_, rfl, rfl, rfl, rfl⟩
  · rw [validateContext_none_iff]
    constructor
    · rintro ⟨output2, ho, hl⟩
      cases ho
      exact hl
    · intro hl
      exact ⟨output, rfl, hl⟩
  · rw [validateContext_of_ok _ context output rfl]
    split
    · exact Or.inl rfl
    · exact Or.inr rfl
  · intro cause
    exact ⟨by rw [validateContext_of_error _ context cause rfl],
      fun name => queryFailed_ne_notFound cause name⟩

/-! ## Confirmation claims -/

/-- C6: `confirmExecution` returns true exactly when the read of one line
succeeded (a newline was delivered) and the line, lower-cased and trimmed, is
`y` or `yes`; when the case table preserves white space, trimming first and
lower-casing second gives the same condition. The lines `y`, `YES` followed by
two blanks, and `Yes` after a blank give true; an empty line, another word, an
unterminated `y` and a closed stream give false. The answer depends only on
standard input and the case table, not on the arguments, the environment or
the resolved context. -/
theorem confirmExecution_true_iff (w : World) (args : List String) :
    ((confirmExecution w args).1 = true ↔
      ((ReadString w.stdin).2 = false ∧
        (TrimSpace (ToLower w.caseTable (ReadString w.stdin).1) = "y" ∨
          TrimSpace (ToLower w.caseTable (ReadString w.stdin).1) = "yes"))) ∧
    ((∀ c, unicodeIsSpace (w.caseTable c) = unicodeIsSpace c) →
      ((confirmExecution w args).1 = true ↔
        ((ReadString w.stdin).2 = false ∧
          (ToLower w.caseTable (TrimSpace (ReadString w.stdin).1) = "y" ∨
            ToLower w.caseTable (TrimSpace (ReadString w.stdin).1) = "yes")))) ∧
    ((ReadString w.stdin).2 = false ↔ '\n' ∈ w.stdin.data) ∧
    (confirmExecution { w with stdin := "y\n" } args).1 = true ∧
    (confirmExecution { w with stdin := "YES  \n" } args).1 = true ∧
    (confirmExecution { w with stdin := " Yes\n" } args).1 = true ∧
    (confirmExecution { w with stdin := "yes\nno\n" } args).1 = true ∧
    (confirmExecution { w with stdin := "\n" } args).1 = false ∧
    (confirmExecution { w with stdin := "yes please\n" } args).1 = false ∧
    (confirmExecution { w with stdin := "y" } args).1 = false ∧
    (confirmExecution { w with stdin := "" } args).1 = false ∧
    (∀ (w2 : World) (args2 : List String), w2.stdin = w.stdin → w2.caseTable = w.caseTable →
      (confirmExecution w2 args2).1 = (confirmExecution w args).1) := by
  have hiff : (confirmExecution w args).1 = true ↔
      ((ReadString w.stdin).2 = false ∧
        (TrimSpace (ToLower w.caseTable (ReadString w.stdin).1) = "y" ∨
          TrimSpace (ToLower w.caseTable (ReadString w.stdin).1) = "yes")) := by
    rw [confirmExecution_fst]
    simp
  refine ⟨hiff, ?_, ?_, ?_, ?_, ?_, ?_, ?_, ?_, ?_, ?_, ?_⟩
  · intro htbl
    rw [hiff, TrimSpace_ToLower w.caseTable htbl]
  · exact readChars_mem_delim '\n' w.stdin.data
  · rw [confirmExecution_fst]; rfl
  · rw [confirmExecution_fst]; rfl
  · rw [confirmExecution_fst]; rfl
  · rw [confirmExecution_fst]; rfl
  · rw [confirmExecution_fst]; rfl
  · rw [confirmExecution_fst]; rfl
  · rw [confirmExecution_fst]; rfl
  · rw [confirmExecution_fst]; rfl
  · intro w2 args2 h1 h2
    rw [confirmExecution_fst, confirmExecution_fst, h1, h2]

/-- Witness of C6: the identity case table preserves white space, and the
line `Yes` after a blank is accepted under both orders of trimming and
lower-casing. -/
theorem confirmExecution_true_iff_witness :
    (∀ c, unicodeIsSpace ((installScenario " Yes\n").caseTable c) = unicodeIsSpace c) ∧
    (ReadString (installScenario " Yes\n").stdin).2 = false ∧
    ToLower (installScenario " Yes\n").caseTable
      (TrimSpace (ReadString (installScenario " Yes\n").stdin).1) = "yes" ∧
    (confirmExecution (installScenario " Yes\n") []).1 = true :=
  ⟨fun _ => rfl, by decide, by decide,
    ((confirmExecution_true_iff (installScenario " Yes\n") []).2.1 (fun _ => rfl)).mpr
      ⟨by decide, Or.inr (by decide)⟩⟩

/-- C7 fails as stated: for `install` with both flags and an existing context,
the answer `Y` is lower-cased to `y`, `confirmExecution` returns true and the
delegated binary is run. -/
theorem uppercase_answer_confirms :
    classify "install" ["app", "./chart", "--namespace", "web", "--kube-context", "dev"] =
      Classification.Modifying ∧
    (performSafetyChecks (installScenario "Y\n") (installScenario "Y\n").args).1 = none ∧
    ReadString "Y\n" = ("Y\n", false) ∧
    TrimSpace (ToLower (installScenario "Y\n").caseTable "Y\n") = "y" ∧
    (confirmExecution (installScenario "Y\n") (installScenario "Y\n").args).1 = true ∧
    Execute (installScenario "Y\n") =
      (none, [getContextsEvent, Event.readStdin,
        Event.helm "helm"
          ["install", "app", "./chart", "--namespace", "web", "--kube-context", "dev"]]) := by
  refine ⟨by decide, by decide, by decide, by decide, by decide, by decide⟩

/-- C7 as amended: for a Modifying command that passed validation, when the
line read is `n`, or is empty, or the stream ends before a newline (closed
stream, whatever was typed before), `confirmExecution` returns false and
`Execute` returns no error after the cancellation notice, without running the
delegated binary. -/
theorem declined_confirmation_cancels (w : World) (command : String)
    (remainingArgs : List String) (hargs : w.args = command :: remainingArgs)
    (hcls : classify command remainingArgs = Classification.Modifying)
    (hpass : (performSafetyChecks w w.args).1 = none)
    (hin : ReadString w.stdin = ("n\n", false) ∨ ReadString w.stdin = ("\n", false) ∨
      (ReadString w.stdin).2 = true) :
    (confirmExecution w w.args).1 = false ∧
    Execute w = (none, (performSafetyChecks w w.args).2 ++ (confirmExecution w w.args).2
      ++ [Event.printMessage MessageType.TypeNotice "Operation cancelled"]) ∧
    (∀ e ∈ (Execute w).2, e.isHelm = false) := by
  have hc : (confirmExecution w w.args).1 = false := by
    rw [confirmExecution_fst]
    rcases hin with h | h | h
    · rw [h]; rfl
    · rw [h]; rfl
    · rw [h]; rfl
  obtain ⟨hs, hm⟩ := classify_modifying command remainingArgs hcls
  have he := execute_of_modifying w command remainingArgs hargs hs hm
  have hd := executeGated_of_declined w w.args hpass hc
  refine ⟨hc, he.trans hd, ?_⟩
  intro e hmem
  cases hh : e.isHelm
  · rfl
  · rw [he] at hmem
    have := (executeGated_helm_iff w w.args).mp ⟨e, hmem, hh⟩
    rw [hc] at this
    exact absurd this.2 (by simp)

/-- Witness of amended C7: the answer `n` to `install` with both flags and an
existing context cancels the run. -/
theorem declined_confirmation_cancels_witness :
    (installScenario "n\n").args =
      "install" :: ["app", "./chart", "--namespace", "web", "--kube-context", "dev"] ∧
    classify "install" ["app", "./chart", "--namespace", "web", "--kube-context", "dev"] =
      Classification.Modifying ∧
    (performSafetyChecks (installScenario "n\n") (installScenario "n\n").args).1 = none ∧
    ReadString (installScenario "n\n").stdin = ("n\n", false) ∧
    (confirmExecution (installScenario "n\n") (installScenario "n\n").args).1 = false ∧
    (∀ e ∈ (Execute (installScenario "n\n")).2, e.isHelm = false) :=
  have h := declined_confirmation_cancels (installScenario "n\n") "install"
    ["app", "./chart", "--namespace", "web", "--kube-context", "dev"] rfl (by decide)
    (by decide) (Or.inl (by decide))
  ⟨rfl, by decide, by decide, by decide, h.1, h.2.2⟩

/-- C10: `isProductionContext` is true exactly when the lower-cased context
contains one of `prod`, `production`, `live`, `prd` as a substring. It is true
for `prod-cluster`, `production`, `live-env` and `PROD-Cluster`, false for
`dev-cluster`, `staging` and `test`, and equal on any two contexts with the
same lower-casing. -/
theorem isProductionContext_iff (tbl : Char → Char) (context : String) :
    (isProductionContext tbl context = true ↔
      ∃ keyword ∈ ["prod", "production", "live", "prd"],
        keyword.data <:+: (ToLower tbl context).data) ∧
    isProductionContext tbl "prod-cluster" = true ∧
    isProductionContext tbl "production" = true ∧
    isProductionContext tbl "live-env" = true ∧
    isProductionContext tbl "PROD-Cluster" = true ∧
    isProductionContext tbl "Live-ENV" = true ∧
    isProductionContext tbl "dev-cluster" = false ∧
    isProductionContext tbl "staging" = false ∧
    isProductionContext tbl "test" = false ∧
    (∀ other, ToLower tbl other = ToLower tbl context →
      isProductionContext tbl other = isProductionContext tbl context) := by
  refine ⟨?_, rfl, rfl, rfl, rfl, rfl, rfl, rfl, rfl, ?_⟩
  · unfold isProductionContext
    simp only [List.any_eq_true]
    constructor
    · rintro ⟨keyword, hk, hc⟩
      exact ⟨keyword, hk, (containsChars_iff_sublist _ _).mp hc⟩
    · rintro ⟨keyword, hk, hc⟩
      exact ⟨keyword, hk, (containsChars_iff_sublist _ _).mpr hc⟩
  · intro other h
    unfold isProductionContext
    simp only [h]

/-- Witness of C10: `PROD-Cluster` and `prod-cluster` have the same
lower-casing and the same answer. -/
theorem isProductionContext_iff_witness :
    ToLower (fun c => c) "PROD-Cluster" = ToLower (fun c => c) "prod-cluster" ∧
    isProductionContext (fun c => c) "PROD-Cluster" =
      isProductionContext (fun c => c) "prod-cluster" :=
  ⟨by decide,
    (isProductionContext_iff (fun c => c) "prod-cluster").2.2.2.2.2.2.2.2.2 "PROD-Cluster"
      (by decide)⟩

end HelmSafe
